import Mathlib

/-!
Shallow embedding of `src/generate_temp_kml.py` (NDFD temperature KML
generator) and verification of the frozen claims about it.

Network interaction (`requests.get`) is modelled by oracle functions passed
as explicit parameters: a metadata oracle `String → Option ServiceInfo`
(`none` stands for any exception raised inside `test_service_endpoint`:
connection failure or timeout, a non-success HTTP status raised by
`raise_for_status`, or an unparsable JSON body) and a fetch oracle
`String → FetchResult` for image retrievals.  `datetime.now(timezone.utc)`
is modelled by an explicit `now_ms` parameter (epoch milliseconds).  Python
dictionaries holding request parameters are modelled as ordered association
lists, matching Python 3.7+ insertion order; `urllib.parse.urlencode` and
its default `quote_plus` character escaping are embedded byte-faithfully for
the ASCII data the script produces.
-/

/-- A `timeInfo` JSON object of a service or of a layer; the script only
consults its `timeExtent` list (`time_info.get("timeExtent", [])`), a list
of epoch-millisecond numbers, so only that list is kept. -/
structure TimeInfo where
  timeExtent : List Int
deriving DecidableEq

/-- One entry of the `layers` array of a service descriptor.  `name` and
`id` model `layer.get('name', ...)` / `layer.get('id', ...)` (`none` = key
absent).  `timeInfo` models the `'timeInfo' in layer` key-presence check of
`get_latest_time`; `some ⟨[]⟩` is a present `timeInfo` dict without a usable
`timeExtent`. -/
structure LayerInfo where
  id : Option Int
  name : Option String
  timeInfo : Option TimeInfo
deriving DecidableEq

/-- A parsed `?f=pjson` service descriptor.  For the top-level `timeInfo`
the script tests truthiness (`if time_info:`), so `none` models both an
absent key and a falsy empty dict.  `wms` records the `'wms': True` marker
the WMS fallback descriptor carries (line 93); it is never read back. -/
structure ServiceInfo where
  mapName : Option String
  layers : List LayerInfo
  timeInfo : Option TimeInfo
  wms : Bool
deriving DecidableEq

/-- Outcome of one `requests.get` on an image URL: an HTTP response with its
status code and `content-type` header (`''` when the header is absent, as
`resp.headers.get('content-type', '')` yields), or `failure` for any raised
exception (timeout, connection error). -/
inductive FetchResult where
  | response (status : Nat) (contentType : String)
  | failure
deriving DecidableEq

/-- `pat.isPrefixOf`-style check, self-contained: does `pat` start `s`? -/
def startsWith : List Char → List Char → Bool
  | [], _ => true
  | _ :: _, [] => false
  | p :: ps, c :: cs => p == c && startsWith ps cs

/-- Substring containment on char lists: Python's `pat in s`. -/
def containsSub (pat : List Char) : List Char → Bool
  | [] => pat.isEmpty
  | c :: cs => startsWith pat (c :: cs) || containsSub pat cs

/-- Python's `pat in s` for strings. -/
def strContains (s pat : String) : Bool := containsSub pat.data s.data

/-- Python's `str.lower()`, restricted to ASCII case mapping (all strings
the script lowercases — `content-type` headers and ArcGIS layer names — are
ASCII). -/
def str_lower (s : String) : String := ⟨s.data.map Char.toLower⟩

/-- The per-layer scan of `get_latest_time` (lines 111–119): the first layer
whose `timeInfo` key is present with a `timeExtent` of length ≥ 2 yields
`int(layer_time[1])`, the extent end.  The `print` on line 118 subscripts
`layer['id']`; when the layer has no `id` key this raises `KeyError`, which
the enclosing `except` (line 126) turns into the current time. -/
def get_latest_time_layers (now_ms : Int) : List LayerInfo → Int
  | [] => now_ms
  | layer :: rest =>
    match layer.timeInfo with
    | some ti =>
      match ti.timeExtent with
      | _ :: end_ms :: _ =>
        match layer.id with
        | some _ => end_ms
        | none => now_ms
      | _ => get_latest_time_layers now_ms rest
    | none => get_latest_time_layers now_ms rest

/-- `get_latest_time`, lines 97–129.  With a truthy top-level `timeInfo`
whose `timeExtent` has length ≥ 2 it returns `int(end_ms)` — the second
extent entry, unmodified; otherwise it scans the layers; otherwise it falls
back to the current time (`int(now.timestamp() * 1000)` = `now_ms`), also
the value produced by the catch-all `except`.  The
`datetime.fromtimestamp(end_ms / 1000.0)` appearing in logging statements is
modelled as total (its failure range is platform- and float-dependent). -/
def get_latest_time (now_ms : Int) (service_info : ServiceInfo) : Int :=
  match service_info.timeInfo with
  | some ti =>
    match ti.timeExtent with
    | _ :: end_ms :: _ => end_ms
    | _ => get_latest_time_layers now_ms service_info.layers
  | none => get_latest_time_layers now_ms service_info.layers

/-- `test_image_url`, lines 229–252.  Transcribed with its exact
fall-through: a 200 response whose lowercased content-type contains
`image` returns `True`; contains `json` or `text` returns `False`;
otherwise control reaches the final `return resp.status_code == 200`, as it
does for every non-200 status.  Any exception returns `False`. -/
def test_image_url (r : FetchResult) : Bool :=
  match r with
  | .failure => false
  | .response status contentType =>
    if status == 200 then
      let ct := str_lower contentType
      if strContains ct "image" then true
      else if strContains ct "json" || strContains ct "text" then false
      else status == 200
    else status == 200

/-- A layer carries a usable time extent (length ≥ 2), as `get_latest_time`
checks it. -/
def layer_has_extent (l : LayerInfo) : Bool :=
  match l.timeInfo with
  | some ti => 2 ≤ ti.timeExtent.length
  | none => false

/-- No time extent anywhere in a descriptor: neither a global `timeInfo`
nor a `timeInfo` key on any layer. -/
def no_time_extent (info : ServiceInfo) : Prop :=
  info.timeInfo = none ∧ ∀ l ∈ info.layers, l.timeInfo = none

lemma get_latest_time_layers_of_none (now_ms : Int) (ls : List LayerInfo)
    (h : ∀ l ∈ ls, l.timeInfo = none) : get_latest_time_layers now_ms ls = now_ms := by
  induction ls with
  | nil => rfl
  | cons l rest ih =>
    have hl := h l (List.mem_cons_self l rest)
    have hrest := fun x hx => h x (List.mem_cons_of_mem l hx)
    simp [get_latest_time_layers, hl, ih hrest]

lemma get_latest_time_layers_skip (now_ms : Int) (pre : List LayerInfo)
    (suf : List LayerInfo) (h : ∀ l ∈ pre, layer_has_extent l = false) :
    get_latest_time_layers now_ms (pre ++ suf) = get_latest_time_layers now_ms suf := by
  induction pre with
  | nil => rfl
  | cons l rest ih =>
    have hl := h l (List.mem_cons_self l rest)
    have hrest := fun x hx => h x (List.mem_cons_of_mem l hx)
    unfold layer_has_extent at hl
    match hli : l.timeInfo with
    | none => simp [get_latest_time_layers, hli, ih hrest]
    | some ti =>
      rw [hli] at hl
      match hext : ti.timeExtent with
      | [] => simp [get_latest_time_layers, hli, hext, ih hrest]
      | [x] => simp [get_latest_time_layers, hli, hext, ih hrest]
      | x :: y :: rest2 => simp [hext] at hl

/-- C1 (counterexample).  A descriptor with global time extent
(start = 0, end = 1000, step = 500): `get_latest_time` returns the extent
end 1000, not `end - step = 500` as the claim states.  (The `now` argument
999 shows the result does not come from the fallback.) -/
theorem c1_counterexample :
    get_latest_time 999
      { mapName := some "NDFD", layers := [], timeInfo := some ⟨[0, 1000, 500]⟩, wms := false }
      = 1000 ∧ (1000 : Int) ≠ 1000 - 500 := by
  constructor
  · rfl
  · decide

/-- C1 (amended).  For a descriptor whose global time extent carries a start
`T0`, an end `T1` and a step `S`, `get_latest_time` returns exactly `T1`
(the nominal end; the step is ignored, there is no one-step-back
adjustment), and the same rule — the raw extent end — applies when the
extent is taken from the first layer exposing one (provided that layer has
an `id` key; line 118 subscripts it). -/
theorem c1_amended (now_ms T0 T1 S : Int) (rest : List Int) (info : ServiceInfo) :
    (info.timeInfo = some ⟨T0 :: T1 :: S :: rest⟩ → get_latest_time now_ms info = T1)
    ∧ (info.timeInfo = none →
        ∀ pre lyr post, info.layers = pre ++ lyr :: post →
          (∀ l ∈ pre, layer_has_extent l = false) →
          lyr.timeInfo = some ⟨T0 :: T1 :: S :: rest⟩ →
          lyr.id.isSome = true →
          get_latest_time now_ms info = T1) := by
  constructor
  · intro h
    simp [get_latest_time, h]
  · intro hnone pre lyr post hlayers hpre hlyr hid
    match hidv : lyr.id with
    | none => rw [hidv] at hid; simp at hid
    | some v =>
      simp only [get_latest_time, hnone, hlayers]
      rw [get_latest_time_layers_skip now_ms pre _ hpre]
      simp [get_latest_time_layers, hlyr, hidv]

/-- C1 witness: the amended theorem applied to a concrete global-extent
descriptor and to a concrete first-layer-extent descriptor. -/
theorem c1_witness :
    get_latest_time 999
      { mapName := some "m", layers := [], timeInfo := some ⟨[0, 7000, 3000]⟩, wms := false } = 7000
    ∧ get_latest_time 999
      { mapName := some "m",
        layers := [{ id := some 4, name := some "t", timeInfo := some ⟨[0, 8000, 3000]⟩ }],
        timeInfo := none, wms := false } = 8000 := by
  constructor
  · exact (c1_amended 999 0 7000 3000 []
      { mapName := some "m", layers := [], timeInfo := some ⟨[0, 7000, 3000]⟩, wms := false }).1 rfl
  · exact (c1_amended 999 0 8000 3000 []
      { mapName := some "m",
        layers := [{ id := some 4, name := some "t", timeInfo := some ⟨[0, 8000, 3000]⟩ }],
        timeInfo := none, wms := false }).2 rfl
      [] { id := some 4, name := some "t", timeInfo := some ⟨[0, 8000, 3000]⟩ } [] rfl
      (by intro l hl; simp at hl) rfl rfl

/-- C2 (counterexample).  A 200 response with content-type
`application/pdf` — not an image media type — is *accepted* by
`test_image_url` (the code falls through to `return resp.status_code ==
200`), contradicting the claim that only an image content-type yields
`accepted=true`.  (Conversely, a 2xx status other than 200, e.g. 206 with
`image/png`, is rejected.) -/
theorem c2_counterexample :
    test_image_url (.response 200 "application/pdf") = true
    ∧ strContains (str_lower "application/pdf") "image" = false
    ∧ test_image_url (.response 206 "image/png") = false := by
  refine ⟨rfl, rfl, rfl⟩

/-- C2 (amended).  `test_image_url` returns `true` iff the response has
status exactly 200 (not any 2xx) and its lowercased content-type either
contains `image` or contains neither `json` nor `text`; every other outcome
— any other status, a 200 with a json/text content-type, or an exception
(timeout / connection failure) — yields `false`. -/
theorem c2_amended (r : FetchResult) :
    test_image_url r = true ↔
      ∃ ct, r = .response 200 ct ∧
        (strContains (str_lower ct) "image" = true ∨
          (strContains (str_lower ct) "json" = false ∧ strContains (str_lower ct) "text" = false)) := by
  cases r with
  | failure => simp [test_image_url]
  | response status ct =>
    by_cases hs : status = 200
    · subst hs
      by_cases h1 : strContains (str_lower ct) "image" = true
      · simp [test_image_url, h1]
      · by_cases h2 : strContains (str_lower ct) "json" = true
        · simp [test_image_url, h1, h2]
        · by_cases h3 : strContains (str_lower ct) "text" = true
          · simp [test_image_url, h1, h2, h3]
          · simp only [Bool.not_eq_true] at h1 h2 h3
            simp [test_image_url, h1, h2, h3]
    · have : (status == 200) = false := by simp [hs]
      simp [test_image_url, this, hs]

/-- C6 (counterexample).  With no time extent anywhere, `get_latest_time`
returns the current instant unmodified: 3600001 ms, which lies on no
hourly (3600000 ms) or 3-hourly cadence boundary — the code performs no
truncation to a cadence boundary. -/
theorem c6_counterexample :
    get_latest_time 3600001 { mapName := some "NDFD", layers := [], timeInfo := none, wms := false }
      = 3600001
    ∧ (3600001 : Int) % 3600000 ≠ 0 ∧ (3600001 : Int) % 10800000 ≠ 0 := by
  refine ⟨rfl, by decide, by decide⟩

/-- C6 (amended).  For every descriptor with no time extent anywhere
(neither global nor on any layer), `get_latest_time` returns the current
instant in epoch milliseconds exactly — `int(now.timestamp() * 1000)`, with
no truncation to any cadence boundary — and never raises (the function is
total; the body's only fallible statements sit inside the catch-all
`try/except`, whose handler also returns the current time). -/
theorem c6_amended (now_ms : Int) (info : ServiceInfo) (h : no_time_extent info) :
    get_latest_time now_ms info = now_ms := by
  obtain ⟨h1, h2⟩ := h
  simp only [get_latest_time, h1]
  exact get_latest_time_layers_of_none now_ms info.layers h2

/-- C6 witness: the amended theorem at a concrete extent-free descriptor. -/
theorem c6_witness :
    get_latest_time 12345
      { mapName := none,
        layers := [{ id := some 0, name := some "x", timeInfo := none }],
        timeInfo := none, wms := false } = 12345 :=
  c6_amended 12345
    { mapName := none,
      layers := [{ id := some 0, name := some "x", timeInfo := none }],
      timeInfo := none, wms := false }
    ⟨rfl, by intro l hl; simp at hl; simp [hl]⟩

/-- One hex digit of Python's percent-encoding (uppercase, as
`urllib.parse.quote` emits). -/
def hex_digit (n : Nat) : Char :=
  if n < 10 then Char.ofNat (48 + n) else Char.ofNat (55 + n)

/-- UTF-8 bytes of a character (Python percent-encodes the UTF-8 encoding);
every character the script feeds through `urlencode` is ASCII, where this is
the identity on the code point. -/
def utf8_bytes (c : Char) : List Nat :=
  let n := c.toNat
  if n < 0x80 then [n]
  else if n < 0x800 then [0xC0 ||| (n >>> 6), 0x80 ||| (n &&& 0x3F)]
  else if n < 0x10000 then
    [0xE0 ||| (n >>> 12), 0x80 ||| ((n >>> 6) &&& 0x3F), 0x80 ||| (n &&& 0x3F)]
  else
    [0xF0 ||| (n >>> 18), 0x80 ||| ((n >>> 12) &&& 0x3F),
     0x80 ||| ((n >>> 6) &&& 0x3F), 0x80 ||| (n &&& 0x3F)]

/-- `urllib.parse.quote_plus` on one character: ASCII alphanumerics and
`_.-~` pass through, a space becomes `+`, everything else is
percent-encoded byte-wise. -/
def quote_plus_char (c : Char) : List Char :=
  if c.isAlphanum || c == '_' || c == '.' || c == '-' || c == '~' then [c]
  else if c == ' ' then ['+']
  else (utf8_bytes c).flatMap (fun b => ['%', hex_digit (b / 16), hex_digit (b % 16)])

/-- `urllib.parse.quote_plus` on a string. -/
def quote_plus (s : String) : String := ⟨s.data.flatMap quote_plus_char⟩

/-- `urllib.parse.urlencode` with its default `quote_via=quote_plus`:
`k=v` pairs joined with `&`, in the dict's insertion order. -/
def urlencode (ps : List (String × String)) : String :=
  String.intercalate "&" (ps.map (fun p => quote_plus p.1 ++ "=" ++ quote_plus p.2))

/-- Lines 136–143 of `build_image_url`: the id of the first layer whose
lowercased name contains `temp` but neither `max` nor `min`
(`layer.get('id', 0)`), defaulting to 0 when no layer matches. -/
def get_temp_layer_id : List LayerInfo → Int
  | [] => 0
  | layer :: rest =>
    let nm := str_lower (layer.name.getD "")
    if strContains nm "temp" && !strContains nm "max" && !strContains nm "min" then
      layer.id.getD 0
    else get_temp_layer_id rest

/-- The selection predicate of lines 139–140, as a single test. -/
def temp_layer_match (layer : LayerInfo) : Bool :=
  let nm := str_lower (layer.name.getD "")
  strContains nm "temp" && !strContains nm "max" && !strContains nm "min"

/-- Declarative restatement of the claim C10's selection rule: the `id` of
the first matching layer under `List.find?`, else 0. -/
def spec_temp_layer_id (layers : List LayerInfo) : Int :=
  match layers.find? temp_layer_match with
  | some layer => layer.id.getD 0
  | none => 0

/-- Parameter set 1 (lines 147–168): png32, transparent, with a trail of
deliberately empty parameters that `clean_params` later strips. -/
def param_set_1 (tid : Int) : List (String × String) :=
  [("bbox", "-130,20,-60,55"), ("size", "800,600"), ("format", "png32"),
   ("f", "image"), ("layers", "show:" ++ toString tid), ("imageSR", "4326"),
   ("bboxSR", "4326"), ("transparent", "true"), ("dynamicLayers", ""),
   ("layerDefs", ""), ("mapScale", ""), ("rotation", ""),
   ("datumTransformations", ""), ("layerTimeOptions", ""), ("gdbVersion", ""),
   ("historicMoment", ""), ("mapRangeValues", ""), ("layerRangeValues", ""),
   ("layerParameterValues", "")]

/-- Parameter set 2 (lines 170–179): the minimal set, png, opaque. -/
def param_set_2 (tid : Int) : List (String × String) :=
  [("bbox", "-130,20,-60,55"), ("size", "800,600"), ("format", "png"),
   ("f", "image"), ("layers", "show:" ++ toString tid), ("imageSR", "4326"),
   ("bboxSR", "4326"), ("transparent", "false")]

/-- Parameter set 3 (lines 181–189): jpg output. -/
def param_set_3 (tid : Int) : List (String × String) :=
  [("bbox", "-130,20,-60,55"), ("size", "800,600"), ("format", "jpg"),
   ("f", "image"), ("layers", "show:" ++ toString tid), ("imageSR", "4326"),
   ("bboxSR", "4326")]

/-- Parameter set 4 (lines 191–200): Web Mercator projection. -/
def param_set_4 (tid : Int) : List (String × String) :=
  [("bbox", "-14465442.4,2273030.9,-6679169.4,7361866.1"), ("size", "800,600"),
   ("format", "png"), ("f", "image"), ("layers", "show:" ++ toString tid),
   ("imageSR", "3857"), ("bboxSR", "3857"), ("transparent", "true")]

/-- The ordered `param_sets` list of line 146. -/
def param_sets (tid : Int) : List (List (String × String)) :=
  [param_set_1 tid, param_set_2 tid, param_set_3 tid, param_set_4 tid]

/-- Lines 204–206: `params['time'] = str(int(time_ms))` appends the `time`
key at the end of the insertion-ordered dict, only for the first three sets
(`i < 3`) and only when `time_ms` is truthy and positive. -/
def with_time (time_ms : Int) (i : Nat) (ps : List (String × String)) : List (String × String) :=
  if i < 3 ∧ 0 < time_ms then ps ++ [("time", toString time_ms)] else ps

/-- Line 209: `{k: v for k, v in params.items() if v != ''}`, order
preserved. -/
def clean_params (ps : List (String × String)) : List (String × String) :=
  ps.filter (fun p => p.2 != "")

/-- The full export URL the loop of lines 203–211 constructs for parameter
set `i` (0-based). -/
def set_url (base_url : String) (time_ms : Int) (tid : Int) (i : Nat) : String :=
  base_url ++ "/export?" ++ urlencode (clean_params (with_time time_ms i ((param_sets tid).getD i [])))

/-- Lines 221–227: the unverified fallback URL built from `param_sets[1]`
(the minimal set) with the `time` parameter re-attached when positive.  (In
Python the loop already mutated `param_sets[1]` by inserting the same
`time` key at the same position, so the re-assignment is value-identical.) -/
def fallback_url (base_url : String) (time_ms : Int) (tid : Int) : String :=
  let ps := param_set_2 tid
  let ps := if 0 < time_ms then ps ++ [("time", toString time_ms)] else ps
  base_url ++ "/export?" ++ urlencode (clean_params ps)

/-- The probe loop of `build_image_url` (lines 203–219) over the remaining
set indices, accumulating the URLs submitted to `test_image_url` (most
recent first; the result reverses them into submission order). -/
def build_image_url_loop (fetch : String → FetchResult) (base_url : String)
    (time_ms : Int) (tid : Int) : List Nat → List String → String × List String
  | [], probed => (fallback_url base_url time_ms tid, probed.reverse)
  | i :: rest, probed =>
    let u := set_url base_url time_ms tid i
    if test_image_url (fetch u) then (u, (u :: probed).reverse)
    else build_image_url_loop fetch base_url time_ms tid rest (u :: probed)

/-- `build_image_url`, lines 131–227: pick the temperature layer, then
probe the four parameter sets in order, returning the first accepted URL,
or the unverified fallback when all are rejected.  The second component is
the ordered list of URLs that were submitted to the validation probe. -/
def build_image_url (fetch : String → FetchResult) (base_url : String)
    (time_ms : Int) (service_info : ServiceInfo) : String × List String :=
  build_image_url_loop fetch base_url time_ms (get_temp_layer_id service_info.layers) [0, 1, 2, 3] []

lemma fallback_url_eq_set_url_1 (base_url : String) (time_ms : Int) (tid : Int) :
    fallback_url base_url time_ms tid = set_url base_url time_ms tid 1 := by
  by_cases h : 0 < time_ms <;>
    simp [fallback_url, set_url, with_time, param_sets, h]

/-- C4.  For every fetch oracle, base URL, timestamp and descriptor, if set
`j` is the first parameter set whose probe accepts, `build_image_url`
returns set `j`'s URL and submits exactly the URLs of sets `0..j` to the
probe — no probe is issued for any set after `j`. -/
theorem c4_theorem (fetch : String → FetchResult) (base_url : String) (time_ms : Int)
    (info : ServiceInfo) (j : Nat) (hj : j < 4)
    (hacc : test_image_url (fetch (set_url base_url time_ms (get_temp_layer_id info.layers) j)) = true)
    (hrej : ∀ k, k < j →
      test_image_url (fetch (set_url base_url time_ms (get_temp_layer_id info.layers) k)) = false) :
    build_image_url fetch base_url time_ms info =
      (set_url base_url time_ms (get_temp_layer_id info.layers) j,
       (List.range (j + 1)).map (set_url base_url time_ms (get_temp_layer_id info.layers))) := by
  interval_cases j
  · simp [build_image_url, build_image_url_loop, hacc, List.range_succ]
  · simp [build_image_url, build_image_url_loop, hacc,
      hrej 0 (by omega), List.range_succ]
  · simp [build_image_url, build_image_url_loop, hacc,
      hrej 0 (by omega), hrej 1 (by omega), List.range_succ]
  · simp [build_image_url, build_image_url_loop, hacc,
      hrej 0 (by omega), hrej 1 (by omega), hrej 2 (by omega), List.range_succ]

/-- C3.  For every input on which the probe rejects all four parameter
sets, `build_image_url` still returns the URL of the designated minimal
fallback set (`param_sets[1]`) and the probe log stays at exactly the four
loop probes — no further validation probe is issued for the fallback, and
the function is total (no exception). -/
theorem c3_theorem (fetch : String → FetchResult) (base_url : String) (time_ms : Int)
    (info : ServiceInfo)
    (hrej : ∀ i, i < 4 →
      test_image_url (fetch (set_url base_url time_ms (get_temp_layer_id info.layers) i)) = false) :
    build_image_url fetch base_url time_ms info =
      (set_url base_url time_ms (get_temp_layer_id info.layers) 1,
       [set_url base_url time_ms (get_temp_layer_id info.layers) 0,
        set_url base_url time_ms (get_temp_layer_id info.layers) 1,
        set_url base_url time_ms (get_temp_layer_id info.layers) 2,
        set_url base_url time_ms (get_temp_layer_id info.layers) 3]) := by
  simp [build_image_url, build_image_url_loop, hrej 0 (by omega), hrej 1 (by omega),
    hrej 2 (by omega), hrej 3 (by omega), fallback_url_eq_set_url_1]

/-- C3 witness: a fetch oracle that always fails; the search returns the
minimal set's URL after exactly the four loop probes. -/
theorem c3_witness :
    build_image_url (fun _ => FetchResult.failure) "https://e" 5
      { mapName := none, layers := [], timeInfo := none, wms := false } =
      (set_url "https://e" 5 0 1,
       [set_url "https://e" 5 0 0, set_url "https://e" 5 0 1,
        set_url "https://e" 5 0 2, set_url "https://e" 5 0 3]) :=
  c3_theorem (fun _ => FetchResult.failure) "https://e" 5
    { mapName := none, layers := [], timeInfo := none, wms := false }
    (fun _ _ => rfl)

lemma show_value_ne_empty (s : String) : ("show:" ++ s) ≠ "" := by
  intro h
  have h2 : ("show:" ++ s).length = ("" : String).length := by rw [h]
  rw [String.length_append] at h2
  have h3 : ("show:" : String).length = 5 := rfl
  have h4 : ("" : String).length = 0 := rfl
  omega

lemma get_temp_layer_id_eq_spec (layers : List LayerInfo) :
    get_temp_layer_id layers = spec_temp_layer_id layers := by
  induction layers with
  | nil => rfl
  | cons l rest ih =>
    cases htm : temp_layer_match l with
    | true =>
      have h' := htm
      simp only [temp_layer_match] at h'
      simp [get_temp_layer_id, spec_temp_layer_id, List.find?, htm, h']
    | false =>
      have h' := htm
      simp only [temp_layer_match] at h'
      simp only [get_temp_layer_id, h', Bool.false_and, Bool.and_false,
        Bool.false_eq_true, if_false]
      simp only [spec_temp_layer_id, List.find?, htm] at ih ⊢
      exact ih

/-- C10.  The layer selector is the id of the first layer whose lowercase
name contains `temp` but neither `max` nor `min` (id defaulting to 0, and 0
when no layer matches, including an empty layer list) — stated as equality
with the declarative `List.find?` selection — and that selector appears as
the `layers=show:<id>` request parameter of every one of the four
constructed export parameter sets. -/
theorem c10_theorem (layers : List LayerInfo) :
    get_temp_layer_id layers = spec_temp_layer_id layers
    ∧ ∀ (time_ms : Int) (i : Nat), i < 4 →
        ("layers", "show:" ++ toString (get_temp_layer_id layers)) ∈
          clean_params (with_time time_ms i ((param_sets (get_temp_layer_id layers)).getD i [])) := by
  refine ⟨get_temp_layer_id_eq_spec layers, ?_⟩
  intro time_ms i hi
  have hne := show_value_ne_empty (toString (get_temp_layer_id layers))
  interval_cases i <;>
    by_cases ht : 0 < time_ms <;>
      simp [param_sets, param_set_1, param_set_2, param_set_3, param_set_4,
        with_time, clean_params, List.mem_filter, ht, hne]

/-- C10 witness: a list whose first matching layer is the third one (the
first two names contain `max` / `min`); the selector is its id, used in
parameter set 3 (i = 2). -/
theorem c10_witness :
    get_temp_layer_id
      [{ id := some 1, name := some "Max Temperature", timeInfo := none },
       { id := some 2, name := some "Min Temperature", timeInfo := none },
       { id := some 3, name := some "Temperature", timeInfo := none }] =
      spec_temp_layer_id
        [{ id := some 1, name := some "Max Temperature", timeInfo := none },
         { id := some 2, name := some "Min Temperature", timeInfo := none },
         { id := some 3, name := some "Temperature", timeInfo := none }]
    ∧ ("layers", "show:" ++ toString (get_temp_layer_id
        [{ id := some 1, name := some "Max Temperature", timeInfo := none },
         { id := some 2, name := some "Min Temperature", timeInfo := none },
         { id := some 3, name := some "Temperature", timeInfo := none }])) ∈
        clean_params (with_time 0 2 ((param_sets (get_temp_layer_id
          [{ id := some 1, name := some "Max Temperature", timeInfo := none },
           { id := some 2, name := some "Min Temperature", timeInfo := none },
           { id := some 3, name := some "Temperature", timeInfo := none }])).getD 2 [])) :=
  ⟨(c10_theorem _).1, (c10_theorem _).2 0 2 (by omega)⟩

/-- The statically configured NDFD MapServer endpoints (lines 13–17), in
priority order. -/
def NDFD_ENDPOINTS : List String :=
  ["https://mapservices.weather.noaa.gov/raster/rest/services/NDFD/NDFD_temp/MapServer",
   "https://nowcoast.noaa.gov/arcgis/rest/services/nowcoast/forecast_meteoceanhydro_sfc_ndfd_time/MapServer",
   "https://idpgis.ncep.noaa.gov/arcgis/rest/services/NWS_Forecasts_Guidance_Warnings/NDFD_temp/MapServer"]

/-- The WMS GetMap parameters of `try_wms_service` (lines 58–70), in
insertion order, with the layer and format taken from `WMS_ENDPOINTS[0]`.
Unlike `build_image_url`, this dict is not cleaned, so the empty `styles`
value stays in the URL. -/
def wms_params : List (String × String) :=
  [("service", "WMS"), ("version", "1.3.0"), ("request", "GetMap"),
   ("layers", "temp"), ("styles", ""), ("width", "800"), ("height", "600"),
   ("crs", "EPSG:4326"), ("bbox", "20,-130,55,-60"), ("format", "image/png"),
   ("transparent", "true")]

/-- The full WMS GetMap URL of line 72. -/
def wms_url : String := "https://digital.weather.gov/wms.php?" ++ urlencode wms_params

/-- `test_service_endpoint`, lines 32–52: a GET of `{base_url}?f=pjson`
through the metadata oracle; `none` is any exception (network failure,
`raise_for_status`, JSON parse error) and maps to the `(False, None)`
return. -/
def test_service_endpoint (meta : String → Option ServiceInfo) (base_url : String) :
    Option ServiceInfo :=
  meta (base_url ++ "?f=pjson")

/-- `try_wms_service`, lines 54–80: probes the fixed WMS URL with
`test_image_url` and returns it on acceptance. -/
def try_wms_service (fetch : String → FetchResult) : Option String :=
  if test_image_url (fetch wms_url) then some wms_url else none

/-- The candidate loop of `get_working_endpoint` (lines 83–87),
accumulating the endpoints whose metadata was queried (most recent first;
the result reverses them into query order). -/
def get_working_endpoint_loop (meta : String → Option ServiceInfo) :
    List String → List String → Option (String × ServiceInfo) × List String
  | [], tried => (none, tried.reverse)
  | e :: rest, tried =>
    match test_service_endpoint meta e with
    | some data => (some (e, data), (e :: tried).reverse)
    | none => get_working_endpoint_loop meta rest (e :: tried)

/-- `get_working_endpoint`, lines 81–95: first working MapServer endpoint
wins; otherwise the legacy WMS family is probed and, on acceptance, returned
with its synthetic descriptor `{'mapName': 'NDFD WMS', 'layers': [], 'wms':
True}`; otherwise the run fails (`raise Exception(...)`, modelled as
`.error`).  The extra components record which NDFD endpoints were queried
(in order) and whether the WMS fallback was probed. -/
def get_working_endpoint (meta : String → Option ServiceInfo) (fetch : String → FetchResult) :
    Except String (String × ServiceInfo) × List String × Bool :=
  match get_working_endpoint_loop meta NDFD_ENDPOINTS [] with
  | (some r, tried) => (.ok r, tried, false)
  | (none, tried) =>
    match try_wms_service fetch with
    | some u =>
      (.ok (u, { mapName := some "NDFD WMS", layers := [], timeInfo := none, wms := true }),
       tried, true)
    | none => (.error "No working NDFD endpoints found!", tried, true)

/-- C5.  If candidate `i` is the first endpoint whose metadata query
succeeds, the resolver returns candidate `i` with its parsed descriptor,
the queried-endpoint log stops at `i` (candidates `i+1..n` are never
queried) and the WMS fallback is not probed; and if every candidate fails —
including the legacy WMS probe — the resolver fails the run with the
`No working NDFD endpoints found!` error. -/
theorem c5_theorem (meta : String → Option ServiceInfo) (fetch : String → FetchResult)
    (i : Nat) (d : ServiceInfo) (hi : i < 3)
    (hsucc : meta (NDFD_ENDPOINTS.getD i "" ++ "?f=pjson") = some d)
    (hfail : ∀ k, k < i → meta (NDFD_ENDPOINTS.getD k "" ++ "?f=pjson") = none) :
    get_working_endpoint meta fetch =
      (.ok (NDFD_ENDPOINTS.getD i "", d), NDFD_ENDPOINTS.take (i + 1), false)
    ∧ ∀ (meta' : String → Option ServiceInfo) (fetch' : String → FetchResult),
        (∀ e ∈ NDFD_ENDPOINTS, meta' (e ++ "?f=pjson") = none) →
        test_image_url (fetch' wms_url) = false →
        get_working_endpoint meta' fetch' =
          (.error "No working NDFD endpoints found!", NDFD_ENDPOINTS, true) := by
  constructor
  · interval_cases i
    · simp [NDFD_ENDPOINTS] at hsucc
      simp [get_working_endpoint, get_working_endpoint_loop, test_service_endpoint,
        NDFD_ENDPOINTS, hsucc]
    · have h0 := hfail 0 (by omega)
      simp [NDFD_ENDPOINTS] at hsucc h0
      simp [get_working_endpoint, get_working_endpoint_loop, test_service_endpoint,
        NDFD_ENDPOINTS, hsucc, h0]
    · have h0 := hfail 0 (by omega)
      have h1 := hfail 1 (by omega)
      simp [NDFD_ENDPOINTS] at hsucc h0 h1
      simp [get_working_endpoint, get_working_endpoint_loop, test_service_endpoint,
        NDFD_ENDPOINTS, hsucc, h0, h1]
  · intro meta' fetch' hall hwms
    have h0 := hall "https://mapservices.weather.noaa.gov/raster/rest/services/NDFD/NDFD_temp/MapServer"
      (by simp [NDFD_ENDPOINTS])
    have h1 := hall "https://nowcoast.noaa.gov/arcgis/rest/services/nowcoast/forecast_meteoceanhydro_sfc_ndfd_time/MapServer"
      (by simp [NDFD_ENDPOINTS])
    have h2 := hall "https://idpgis.ncep.noaa.gov/arcgis/rest/services/NWS_Forecasts_Guidance_Warnings/NDFD_temp/MapServer"
      (by simp [NDFD_ENDPOINTS])
    simp at h0 h1 h2
    simp [get_working_endpoint, get_working_endpoint_loop, test_service_endpoint,
      try_wms_service, NDFD_ENDPOINTS, h0, h1, h2, hwms]

/-- C5 witness: a metadata oracle on which only the second NDFD endpoint
answers; the resolver returns it after querying exactly the first two. -/
theorem c5_witness :
    get_working_endpoint
      (fun u =>
        if u == "https://nowcoast.noaa.gov/arcgis/rest/services/nowcoast/forecast_meteoceanhydro_sfc_ndfd_time/MapServer?f=pjson"
        then some { mapName := some "NDFD", layers := [], timeInfo := none, wms := false }
        else none)
      (fun _ => FetchResult.failure) =
      (.ok (NDFD_ENDPOINTS.getD 1 "",
            { mapName := some "NDFD", layers := [], timeInfo := none, wms := false }),
       NDFD_ENDPOINTS.take 2, false) :=
  (c5_theorem
    (fun u =>
      if u == "https://nowcoast.noaa.gov/arcgis/rest/services/nowcoast/forecast_meteoceanhydro_sfc_ndfd_time/MapServer?f=pjson"
      then some { mapName := some "NDFD", layers := [], timeInfo := none, wms := false }
      else none)
    (fun _ => FetchResult.failure) 1
    { mapName := some "NDFD", layers := [], timeInfo := none, wms := false }
    (by omega) (by decide)
    (by intro k hk; interval_cases k; decide)).1

/-- XML 1.0 character validity (the `Char` production): TAB, LF, CR and the
scalar-value ranges 0x20–0xD7FF, 0xE000–0xFFFD, 0x10000–0x10FFFF. -/
def valid_xml_char (c : Char) : Bool :=
  c.toNat == 9 || c.toNat == 10 || c.toNat == 13 ||
  (0x20 ≤ c.toNat && c.toNat ≤ 0xD7FF) ||
  (0xE000 ≤ c.toNat && c.toNat ≤ 0xFFFD) ||
  (0x10000 ≤ c.toNat && c.toNat ≤ 0x10FFFF)

/-- The character alphabet of `strftime("%Y-%m-%d %H:%M UTC")` output:
decimal digits, `-`, space, `:` and the letters of `UTC`. -/
def time_safe (c : Char) : Bool :=
  (48 ≤ c.toNat && c.toNat ≤ 57) || c == '-' || c == ' ' || c == ':' ||
  c == 'U' || c == 'T' || c == 'C'

/-- Decimal digits of a natural number, most significant first (fuel-based
structural recursion so the definition evaluates by reduction; the fuel
`n + 1` always suffices). -/
def natDigitsAux : Nat → Nat → List Char
  | 0, _ => []
  | fuel + 1, n =>
    if n < 10 then [Char.ofNat (48 + n)]
    else natDigitsAux fuel (n / 10) ++ [Char.ofNat (48 + n % 10)]

/-- Decimal digits of a natural number, most significant first. -/
def natDigits (n : Nat) : List Char := natDigitsAux (n + 1) n

/-- Left-pad with `'0'` to width `w` (strftime's `%02d` / `%04d`). -/
def pad_zeros (w : Nat) (l : List Char) : List Char :=
  List.replicate (w - l.length) '0' ++ l

/-- `%02d`. -/
def pad2 (n : Nat) : List Char := pad_zeros 2 (natDigits n)

/-- `%Y` (zero-padded to four digits; a sign for the negative years no real
timestamp reaches). -/
def pad4_int (i : Int) : List Char :=
  if i < 0 then '-' :: pad_zeros 4 (natDigits i.natAbs)
  else pad_zeros 4 (natDigits i.toNat)

/-- Gregorian date from days since the Unix epoch (the standard
civil-from-days algorithm), modelling
`datetime.fromtimestamp(ms / 1000.0, tz=timezone.utc)`. -/
def civil_from_days (z0 : Int) : Int × Nat × Nat :=
  let z := z0 + 719468
  let era := Int.fdiv z 146097
  let doe := (z - era * 146097).toNat
  let yoe := (doe - doe / 1460 + doe / 36524 - doe / 146096) / 365
  let y := (yoe : Int) + era * 400
  let doy := doe - (365 * yoe + yoe / 4 - yoe / 100)
  let mp := (5 * doy + 2) / 153
  let d := doy - (153 * mp + 2) / 5 + 1
  let m := if mp < 10 then mp + 3 else mp - 9
  (if m ≤ 2 then y + 1 else y, m, d)

/-- The characters of `dt.strftime("%Y-%m-%d %H:%M UTC")` for the UTC
datetime at `ms` epoch milliseconds (line 258–259 of the script; seconds
are taken as the floor of `ms / 1000`, the sub-millisecond float rounding
of `fromtimestamp` being immaterial to the minute-resolution format). -/
def format_time_chars (ms : Int) : List Char :=
  let s := Int.fdiv ms 1000
  let days := Int.fdiv s 86400
  let sod := (s - days * 86400).toNat
  let ymd := civil_from_days days
  pad4_int ymd.1 ++ '-' :: pad2 ymd.2.1 ++ '-' :: pad2 ymd.2.2 ++
    ' ' :: pad2 (sod / 3600) ++ ':' :: pad2 (sod % 3600 / 60) ++ " UTC".data

/-- The `time_str` of `create_kml` as a string. -/
def format_time (ms : Int) : String := ⟨format_time_chars ms⟩

lemma digit_char_safe (k : Nat) (hk : k < 10) : time_safe (Char.ofNat (48 + k)) = true := by
  interval_cases k <;> decide

lemma natDigitsAux_safe (fuel n : Nat) : ∀ c ∈ natDigitsAux fuel n, time_safe c = true := by
  induction fuel generalizing n with
  | zero => intro c hc; simp [natDigitsAux] at hc
  | succ fuel ih =>
    intro c hc
    rw [natDigitsAux] at hc
    split at hc
    · next h =>
      simp at hc
      subst hc
      exact digit_char_safe n h
    · next h =>
      rw [List.mem_append] at hc
      rcases hc with hc | hc
      · exact ih (n / 10) c hc
      · simp at hc
        subst hc
        exact digit_char_safe (n % 10) (Nat.mod_lt n (by omega))

lemma natDigits_safe (n : Nat) : ∀ c ∈ natDigits n, time_safe c = true :=
  natDigitsAux_safe (n + 1) n

lemma pad_zeros_safe (w : Nat) (l : List Char) (h : ∀ c ∈ l, time_safe c = true) :
    ∀ c ∈ pad_zeros w l, time_safe c = true := by
  intro c hc
  rw [pad_zeros, List.mem_append] at hc
  rcases hc with hc | hc
  · have := List.eq_of_mem_replicate hc
    subst this
    decide
  · exact h c hc

lemma pad2_safe (n : Nat) : ∀ c ∈ pad2 n, time_safe c = true :=
  pad_zeros_safe 2 (natDigits n) (natDigits_safe n)

lemma pad4_int_safe (i : Int) : ∀ c ∈ pad4_int i, time_safe c = true := by
  intro c hc
  rw [pad4_int] at hc
  split at hc
  · rcases List.mem_cons.mp hc with hc | hc
    · subst hc; decide
    · exact pad_zeros_safe 4 _ (natDigits_safe _) c hc
  · exact pad_zeros_safe 4 _ (natDigits_safe _) c hc

lemma format_time_safe (ms : Int) : ∀ c ∈ (format_time ms).data, time_safe c = true := by
  intro c hc
  simp only [format_time, format_time_chars, List.append_assoc, List.mem_append,
    List.mem_cons] at hc
  repeat' rcases hc with hc | hc
  all_goals
    first
    | decide
    | exact pad4_int_safe _ c hc
    | exact pad2_safe _ c hc

lemma time_safe_not_markup (c : Char) (h : time_safe c = true) :
    c ≠ '<' ∧ c ≠ '&' ∧ c ≠ '>' ∧ valid_xml_char c = true := by
  simp only [time_safe, Bool.or_eq_true, Bool.and_eq_true, decide_eq_true_eq,
    beq_iff_eq] at h
  have hval : 32 ≤ c.toNat ∧ c.toNat ≤ 0xD7FF := by
    repeat' rcases h with h | h
    all_goals first | decide | (obtain ⟨h1, h2⟩ := h; omega)
  have hne : c.toNat ≠ 60 ∧ c.toNat ≠ 38 ∧ c.toNat ≠ 62 := by
    repeat' rcases h with h | h
    all_goals first | decide | (obtain ⟨h1, h2⟩ := h; omega)
  refine ⟨?_, ?_, ?_, ?_⟩
  · intro he; subst he; exact hne.1 rfl
  · intro he; subst he; exact hne.2.1 rfl
  · intro he; subst he; exact hne.2.2 rfl
  · simp only [valid_xml_char, Bool.or_eq_true, Bool.and_eq_true, decide_eq_true_eq,
      beq_iff_eq]
    omega

/-- `xml.sax.saxutils.escape` on one character: `&` → `&amp;`, `<` → `&lt;`,
`>` → `&gt;` (the replacement of `&` is performed first in the Python
source, so a character-wise map is equivalent). -/
def escape_char (c : Char) : List Char :=
  if c == '&' then "&amp;".data
  else if c == '<' then "&lt;".data
  else if c == '>' then "&gt;".data
  else [c]

/-- `xml.sax.saxutils.escape` over a character list. -/
def escape_list : List Char → List Char
  | [] => []
  | c :: rest => escape_char c ++ escape_list rest

/-- `safe_image_url = xml.sax.saxutils.escape(image_url)` (line 262). -/
def xml_escape (s : String) : String := ⟨escape_list s.data⟩

/-- Inverse of the escaping: decode the three entities `escape` emits
(a scan equivalent to `xml.sax.saxutils.unescape` on such data). -/
def xml_unescape_chars : List Char → List Char
  | '&' :: 'a' :: 'm' :: 'p' :: ';' :: rest => '&' :: xml_unescape_chars rest
  | '&' :: 'l' :: 't' :: ';' :: rest => '<' :: xml_unescape_chars rest
  | '&' :: 'g' :: 't' :: ';' :: rest => '>' :: xml_unescape_chars rest
  | c :: rest => c :: xml_unescape_chars rest
  | [] => []

lemma unescape_cons_ne (c : Char) (t : List Char) (h : c ≠ '&') :
    xml_unescape_chars (c :: t) = c :: xml_unescape_chars t := by
  rw [xml_unescape_chars.eq_def]
  split
  · next heq => rw [List.cons.injEq] at heq; exact absurd heq.1 h
  · next heq => rw [List.cons.injEq] at heq; exact absurd heq.1 h
  · next heq => rw [List.cons.injEq] at heq; exact absurd heq.1 h
  · next c' rest' _ _ _ heq =>
    rw [List.cons.injEq] at heq
    rw [heq.1, heq.2]
  · next heq => exact absurd heq (by simp)

lemma unescape_escape (s : List Char) : xml_unescape_chars (escape_list s) = s := by
  induction s with
  | nil => rfl
  | cons c rest ih =>
    show xml_unescape_chars (escape_char c ++ escape_list rest) = c :: rest
    by_cases h1 : c = '&'
    · subst h1
      show xml_unescape_chars ('&' :: 'a' :: 'm' :: 'p' :: ';' :: escape_list rest) = _
      rw [xml_unescape_chars, ih]
    · by_cases h2 : c = '<'
      · subst h2
        show xml_unescape_chars ('&' :: 'l' :: 't' :: ';' :: escape_list rest) = _
        rw [xml_unescape_chars, ih]
      · by_cases h3 : c = '>'
        · subst h3
          show xml_unescape_chars ('&' :: 'g' :: 't' :: ';' :: escape_list rest) = _
          rw [xml_unescape_chars, ih]
        · have he : escape_char c = [c] := by
            simp [escape_char, h1, h2, h3]
          rw [he]
          show xml_unescape_chars (c :: escape_list rest) = _
          rw [unescape_cons_ne c _ h1, ih]

lemma escape_char_no_lt (c : Char) : '<' ∉ escape_char c := by
  by_cases h1 : c = '&'
  · subst h1; decide
  · by_cases h2 : c = '<'
    · subst h2; decide
    · by_cases h3 : c = '>'
      · subst h3; decide
      · have he : escape_char c = [c] := by simp [escape_char, h1, h2, h3]
        rw [he]
        simp
        exact fun he' => h2 he'.symm

lemma escape_list_no_lt (s : List Char) : '<' ∉ escape_list s := by
  induction s with
  | nil => simp [escape_list]
  | cons c rest ih =>
    rw [escape_list, List.mem_append]
    rintro (h | h)
    · exact escape_char_no_lt c h
    · exact ih h

/-- Characters allowed in an element-name token by the checker. -/
def name_char (c : Char) : Bool :=
  c.isAlpha || c.isDigit || c == '_' || c == ':' || c == '-' || c == '.'

/-- Entity names the checker accepts in a `&...;` reference. -/
def entity_ok (acc : List Char) : Bool :=
  acc == "amp".data || acc == "lt".data || acc == "gt".data ||
  acc == "quot".data || acc == "apos".data

/-- Scanner mode of the markup well-formedness checker. -/
inductive XmlMode where
  | text
  | ref (acc : List Char)
  | ltSeen
  | openName (acc : List Char)
  | openRest (acc : List Char)
  | attrVal (acc : List Char) (q : Char)
  | selfClose
  | closeName (acc : List Char)
  | pi
  | piq
  | bang
  | err
deriving DecidableEq

/-- State of the markup checker: the stack of open element names plus the
scanner mode. -/
structure XmlState where
  stack : List (List Char)
  mode : XmlMode
deriving DecidableEq

/-- One step of the markup well-formedness checker: a conventional
tag-balance scanner (open/close/self-closing tags, quoted attribute values,
`<?...?>` declarations, `<!...>` comment blocks, entity references) that
also rejects any character outside the XML `Char` production. -/
def processChar (st : XmlState) (c : Char) : XmlState :=
  if valid_xml_char c then
    match st.mode with
    | .err => st
    | .text =>
      if c == '<' then { st with mode := .ltSeen }
      else if c == '&' then { st with mode := .ref [] }
      else st
    | .ref acc =>
      if c == ';' then
        if entity_ok acc.reverse then { st with mode := .text }
        else { st with mode := .err }
      else { st with mode := .ref (c :: acc) }
    | .ltSeen =>
      if c == '/' then { st with mode := .closeName [] }
      else if c == '?' then { st with mode := .pi }
      else if c == '!' then { st with mode := .bang }
      else if name_char c then { st with mode := .openName [c] }
      else { st with mode := .err }
    | .openName acc =>
      if name_char c then { st with mode := .openName (c :: acc) }
      else if c == ' ' || c == '\n' || c == '\t' || c == '\r' then
        { st with mode := .openRest acc }
      else if c == '>' then { stack := acc.reverse :: st.stack, mode := .text }
      else if c == '/' then { st with mode := .selfClose }
      else { st with mode := .err }
    | .openRest acc =>
      if c == '>' then { stack := acc.reverse :: st.stack, mode := .text }
      else if c == '/' then { st with mode := .selfClose }
      else if c == '"' || c == '\'' then { st with mode := .attrVal acc c }
      else if c == '<' then { st with mode := .err }
      else st
    | .attrVal acc q =>
      if c == q then { st with mode := .openRest acc }
      else if c == '<' then { st with mode := .err }
      else st
    | .selfClose =>
      if c == '>' then { st with mode := .text } else { st with mode := .err }
    | .closeName acc =>
      if name_char c then { st with mode := .closeName (c :: acc) }
      else if c == '>' then
        match st.stack with
        | top :: rest =>
          if top == acc.reverse then { stack := rest, mode := .text }
          else { st with mode := .err }
        | [] => { st with mode := .err }
      else { st with mode := .err }
    | .pi => if c == '?' then { st with mode := .piq } else st
    | .piq =>
      if c == '>' then { st with mode := .text }
      else if c == '?' then st
      else { st with mode := .pi }
    | .bang => if c == '>' then { st with mode := .text } else st
  else { st with mode := .err }

/-- Run the checker over a chunk. -/
def processChunk (st : XmlState) (s : List Char) : XmlState := s.foldl processChar st

/-- A document is well-formed markup when the checker, started in content
mode with an empty element stack, ends in content mode with an empty
stack (all tags balanced, all entity references recognized, all characters
XML-valid). -/
def xml_well_formed (s : String) : Bool :=
  processChunk { stack := [], mode := .text } s.data == { stack := [], mode := XmlMode.text }

lemma processChunk_append (st : XmlState) (a b : List Char) :
    processChunk st (a ++ b) = processChunk (processChunk st a) b :=
  List.foldl_append processChar st a b

lemma processChar_text_plain (σ : List (List Char)) (c : Char)
    (hv : valid_xml_char c = true) (h1 : c ≠ '<') (h2 : c ≠ '&') :
    processChar ⟨σ, .text⟩ c = ⟨σ, .text⟩ := by
  simp [processChar, hv, h1, h2]

lemma processChunk_text_amp (σ : List (List Char)) :
    processChunk ⟨σ, .text⟩ "&amp;".data = ⟨σ, .text⟩ := rfl

lemma processChunk_text_lt (σ : List (List Char)) :
    processChunk ⟨σ, .text⟩ "&lt;".data = ⟨σ, .text⟩ := rfl

lemma processChunk_text_gt (σ : List (List Char)) :
    processChunk ⟨σ, .text⟩ "&gt;".data = ⟨σ, .text⟩ := rfl

lemma processChunk_text_escape (σ : List (List Char)) (s : List Char)
    (hv : ∀ c ∈ s, valid_xml_char c = true) :
    processChunk ⟨σ, .text⟩ (escape_list s) = ⟨σ, .text⟩ := by
  induction s with
  | nil => rfl
  | cons c rest ih =>
    have hvc := hv c (List.mem_cons_self c rest)
    have hvr := fun x hx => hv x (List.mem_cons_of_mem c hx)
    rw [escape_list, processChunk_append]
    by_cases h1 : c = '&'
    · subst h1
      rw [show escape_char '&' = "&amp;".data from rfl, processChunk_text_amp, ih hvr]
    · by_cases h2 : c = '<'
      · subst h2
        rw [show escape_char '<' = "&lt;".data from rfl, processChunk_text_lt, ih hvr]
      · by_cases h3 : c = '>'
        · subst h3
          rw [show escape_char '>' = "&gt;".data from rfl, processChunk_text_gt, ih hvr]
        · have he : escape_char c = [c] := by simp [escape_char, h1, h2, h3]
          rw [he]
          have hp : processChunk ⟨σ, XmlMode.text⟩ [c] = ⟨σ, XmlMode.text⟩ := by
            show processChar ⟨σ, XmlMode.text⟩ c = ⟨σ, XmlMode.text⟩
            exact processChar_text_plain σ c hvc h2 h1
          rw [hp, ih hvr]

/-- The suffix of `s` after the first occurrence of `pat` (`none` when `pat`
does not occur). -/
def findAfter (pat : List Char) : List Char → Option (List Char)
  | [] => none
  | c :: rest =>
    if startsWith pat (c :: rest) then some ((c :: rest).drop pat.length)
    else findAfter pat rest

/-- The chars of `s` strictly before the first occurrence of `pat` (`none`
when `pat` does not occur). -/
def takeUntil (pat : List Char) : List Char → Option (List Char)
  | [] => none
  | c :: rest =>
    if startsWith pat (c :: rest) then some []
    else (takeUntil pat rest).map (c :: ·)

/-- Some nonempty terminal suffix of `s` is a proper prefix of `pat` (an
occurrence of `pat` could straddle the right edge of `s`). -/
def tail_overlap (pat s : List Char) : Bool :=
  s.tails.any (fun t => !t.isEmpty && startsWith t pat && decide (t.length < pat.length))

lemma startsWith_append_of (pat s x : List Char) (h : startsWith pat s = true) :
    startsWith pat (s ++ x) = true := by
  induction pat generalizing s with
  | nil => rfl
  | cons p ps ih =>
    cases s with
    | nil => simp [startsWith] at h
    | cons c cs =>
      rw [List.cons_append]
      simp only [startsWith, Bool.and_eq_true] at h ⊢
      exact ⟨h.1, ih cs h.2⟩

lemma startsWith_length_le (pat s : List Char) (h : startsWith pat s = true) :
    pat.length ≤ s.length := by
  induction pat generalizing s with
  | nil => simp
  | cons p ps ih =>
    cases s with
    | nil => simp [startsWith] at h
    | cons c cs =>
      simp only [startsWith, Bool.and_eq_true] at h
      have := ih cs h.2
      simp only [List.length_cons]
      omega

lemma drop_append_of_le (n : Nat) (a b : List Char) (h : n ≤ a.length) :
    (a ++ b).drop n = a.drop n ++ b := by
  induction a generalizing n with
  | nil =>
    simp at h
    subst h
    simp
  | cons c cs ih =>
    cases n with
    | zero => simp
    | succ m =>
      simp only [List.cons_append, List.drop_succ_cons]
      exact ih m (by simpa using h)

lemma startsWith_ext (s pat x : List Char) (h : startsWith pat (s ++ x) = true)
    (h2 : startsWith pat s = false) :
    startsWith s pat = true ∧ s.length < pat.length := by
  induction s generalizing pat with
  | nil =>
    cases pat with
    | nil => simp [startsWith] at h2
    | cons p ps => exact ⟨rfl, by simp⟩
  | cons c cs ih =>
    cases pat with
    | nil => simp [startsWith] at h2
    | cons p ps =>
      rw [List.cons_append] at h
      simp only [startsWith, Bool.and_eq_true, beq_iff_eq] at h
      simp only [startsWith] at h2 ⊢
      have hps : startsWith ps cs = false := by
        cases hsw : startsWith ps cs
        · rfl
        · exfalso
          rw [hsw, Bool.and_true] at h2
          rw [h.1] at h2
          simp at h2
      have hih := ih ps h.2 hps
      constructor
      · simp only [Bool.and_eq_true, beq_iff_eq]
        exact ⟨h.1.symm, hih.1⟩
      · simp only [List.length_cons]
        omega

lemma findAfter_some_length (pat s r : List Char) (h : findAfter pat s = some r) :
    pat.length ≤ s.length := by
  induction s with
  | nil => simp [findAfter] at h
  | cons c cs ih =>
    rw [findAfter] at h
    split at h
    · next hs => exact startsWith_length_le pat _ hs
    · next hs =>
      have := ih h
      simp only [List.length_cons]
      omega

lemma findAfter_append_some (pat p x r : List Char) (h : findAfter pat p = some r) :
    findAfter pat (p ++ x) = some (r ++ x) := by
  induction p generalizing r with
  | nil => simp [findAfter] at h
  | cons c cs ih =>
    rw [findAfter] at h
    rw [List.cons_append, findAfter]
    split at h
    · next hs =>
      rw [if_pos (by rw [← List.cons_append]; exact startsWith_append_of _ _ x hs)]
      injection h with h
      subst h
      rw [← List.cons_append, drop_append_of_le _ _ _ (startsWith_length_le _ _ hs)]
    · next hs =>
      have hsx : startsWith pat (c :: (cs ++ x)) = false := by
        cases hb : startsWith pat (c :: (cs ++ x))
        · rfl
        · exfalso
          have hs' : startsWith pat (c :: cs) = false := by
            cases hsw : startsWith pat (c :: cs)
            · rfl
            · exact absurd hsw hs
          have hext := startsWith_ext (c :: cs) pat x (by rw [List.cons_append]; exact hb) hs'
          have hlen := findAfter_some_length pat cs r h
          have := hext.2
          simp only [List.length_cons] at this
          omega
      rw [if_neg (by simp [hsx])]
      exact ih r h

lemma findAfter_skip (pat p x : List Char) (h1 : findAfter pat p = none)
    (h2 : tail_overlap pat p = false) :
    findAfter pat (p ++ x) = findAfter pat x := by
  induction p with
  | nil => rfl
  | cons c cs ih =>
    rw [findAfter] at h1
    have hs : startsWith pat (c :: cs) = false := by
      cases hsw : startsWith pat (c :: cs)
      · rfl
      · rw [if_pos hsw] at h1; exact absurd h1 (by simp)
    rw [if_neg (by simp [hs])] at h1
    rw [tail_overlap, List.tails_cons, List.any_cons, Bool.or_eq_false_iff] at h2
    obtain ⟨h2head, h2tail⟩ := h2
    rw [List.cons_append, findAfter]
    have hsx : startsWith pat (c :: (cs ++ x)) = false := by
      cases hb : startsWith pat (c :: (cs ++ x))
      · rfl
      · exfalso
        have hext := startsWith_ext (c :: cs) pat x (by rw [List.cons_append]; exact hb) hs
        rw [Bool.and_eq_false_iff, Bool.and_eq_false_iff] at h2head
        rcases h2head with (h' | h') | h'
        · simp at h'
        · rw [hext.1] at h'; exact absurd h' (by simp)
        · rw [decide_eq_false_iff_not] at h'; exact h' hext.2
    rw [if_neg (by simp [hsx])]
    exact ih h1 h2tail

lemma findAfter_skip_no_head (p0 : Char) (pr ts x : List Char) (h : p0 ∉ ts) :
    findAfter (p0 :: pr) (ts ++ x) = findAfter (p0 :: pr) x := by
  induction ts with
  | nil => rfl
  | cons c cs ih =>
    have hne : p0 ≠ c := fun he => h (he ▸ List.mem_cons_self c cs)
    rw [List.cons_append, findAfter]
    have hf : startsWith (p0 :: pr) (c :: (cs ++ x)) = false := by
      simp only [startsWith, Bool.and_eq_false_iff]
      left
      simp [hne]
    rw [if_neg (by simp [hf])]
    exact ih (fun hm => h (List.mem_cons_of_mem c hm))

lemma takeUntil_some_length (pat s r : List Char) (h : takeUntil pat s = some r) :
    pat.length ≤ s.length := by
  induction s generalizing r with
  | nil => simp [takeUntil] at h
  | cons c cs ih =>
    rw [takeUntil] at h
    split at h
    · next hs => exact startsWith_length_le pat _ hs
    · next hs =>
      cases hu : takeUntil pat cs with
      | none => rw [hu] at h; simp at h
      | some r' =>
        have := ih r' hu
        simp only [List.length_cons]
        omega

lemma takeUntil_append_some (pat p x r : List Char) (h : takeUntil pat p = some r) :
    takeUntil pat (p ++ x) = some r := by
  induction p generalizing r with
  | nil => simp [takeUntil] at h
  | cons c cs ih =>
    rw [takeUntil] at h
    by_cases hs : startsWith pat (c :: cs) = true
    · rw [if_pos hs] at h
      rw [List.cons_append, takeUntil,
        if_pos (by rw [← List.cons_append]; exact startsWith_append_of _ _ x hs)]
      exact h
    · have hs' : startsWith pat (c :: cs) = false := by
        cases hsw : startsWith pat (c :: cs)
        · rfl
        · exact absurd hsw hs
      rw [if_neg hs] at h
      cases hu : takeUntil pat cs with
      | none => rw [hu] at h; simp at h
      | some r' =>
        rw [hu] at h
        have hcr : c :: r' = r := Option.some.inj h
        rw [List.cons_append, takeUntil]
        have hsx : startsWith pat (c :: (cs ++ x)) = false := by
          cases hb : startsWith pat (c :: (cs ++ x))
          · rfl
          · exfalso
            have hext := startsWith_ext (c :: cs) pat x (by rw [List.cons_append]; exact hb) hs'
            have hlen := takeUntil_some_length pat cs r' hu
            have := hext.2
            simp only [List.length_cons] at this
            omega
        rw [if_neg (by simp [hsx]), ih r' hu]
        simp [hcr]

lemma takeUntil_skip_no_head (p0 : Char) (pr e x : List Char) (h : p0 ∉ e) :
    takeUntil (p0 :: pr) (e ++ x) = (takeUntil (p0 :: pr) x).map (e ++ ·) := by
  induction e with
  | nil =>
    simp only [List.nil_append]
    cases htu : takeUntil (p0 :: pr) x <;> simp [htu]
  | cons c cs ih =>
    have hne : p0 ≠ c := fun he => h (he ▸ List.mem_cons_self c cs)
    rw [List.cons_append, takeUntil]
    have hf : startsWith (p0 :: pr) (c :: (cs ++ x)) = false := by
      simp only [startsWith, Bool.and_eq_false_iff]
      left
      simp [hne]
    rw [if_neg (by simp [hf]), ih (fun hm => h (List.mem_cons_of_mem c hm))]
    cases htu : takeUntil (p0 :: pr) x <;> simp [htu]

/-- Template segment 1 of the `create_kml` f-string (lines 264–267), up to
the first `{time_str}` interpolation. -/
def kml_seg_1 : String :=
  "<?xml version=\"1.0\" encoding=\"UTF-8\"?>\n<kml xmlns=\"http://www.opengis.net/kml/2.2\">\n  <Document>\n    <name>CONUS Temperature - "

/-- Template segment 2, between `{time_str}` and `{service_name}`. -/
def kml_seg_2 : String :=
  "</name>\n    <description>Live "

/-- Template segment 3, between `{service_name}` and the second
`{time_str}`. -/
def kml_seg_3 : String :=
  " temperature data for Continental United States. Updates every 30 minutes.</description>\n    \n    <Style id=\"tempStyle\">\n      <ListStyle>\n        <ItemIcon>\n          <href>https://maps.google.com/mapfiles/kml/paddle/T.png</href>\n        </ItemIcon>\n      </ListStyle>\n    </Style>\n    \n    <!-- Temperature Ground Overlay -->\n    <GroundOverlay>\n      <name>Temperature Data</name>\n      <description>Current Temperature - Updated: "

/-- Template segment 4, between the second `{time_str}` and
`{safe_image_url}`. -/
def kml_seg_4 : String :=
  "</description>\n      <styleUrl>#tempStyle</styleUrl>\n      <Icon>\n        <href>"

/-- First third of template segment 5: through the end of the
`GroundOverlay` element. -/
def kml_seg_5a : String :=
  "</href>
        <refreshMode>onInterval</refreshMode>
        <refreshInterval>1800</refreshInterval>
        <viewRefreshMode>never</viewRefreshMode>
      </Icon>
      <LatLonBox>
        <north>55</north>
        <south>20</south>
        <east>-60</east>
        <west>-130</west>
        <rotation>0</rotation>
      </LatLonBox>
      <color>ccffffff</color>
      <drawOrder>10</drawOrder>
    </GroundOverlay>
    
"

/-- Second third of template segment 5: the legend `ScreenOverlay`. -/
def kml_seg_5b : String :=
  "    <!-- Temperature Legend -->
    <ScreenOverlay>
      <name>Temperature Legend</name>
      <description>Temperature scale in Fahrenheit</description>
      <Icon>
        <href>https://digital.weather.gov/staticpages/legend/tempscale_conus.png</href>
      </Icon>
      <overlayXY x=\"0\" y=\"1\" xunits=\"fraction\" yunits=\"fraction\"/>
      <screenXY x=\"0.02\" y=\"0.98\" xunits=\"fraction\" yunits=\"fraction\"/>
      <size x=\"200\" y=\"0\" xunits=\"pixels\" yunits=\"fraction\"/>
    </ScreenOverlay>
    
"

/-- Last third of template segment 5: the `LookAt` block and the closing
tags. -/
def kml_seg_5c : String :=
  "    <!-- Default view -->
    <LookAt>
      <longitude>-98</longitude>
      <latitude>39</latitude>
      <altitude>0</altitude>
      <range>4000000</range>
      <tilt>0</tilt>
      <heading>0</heading>
      <altitudeMode>absolute</altitudeMode>
    </LookAt>
    
  </Document>
</kml>"

/-- Template segment 5, from `{safe_image_url}` to the end of the
document (split in three for tractable evaluation). -/
def kml_seg_5 : String := kml_seg_5a ++ kml_seg_5b ++ kml_seg_5c

/-- The suffix of `kml_seg_5a` after its `<LatLonBox>` marker. -/
def kml_seg_5a_tail : String :=
  "
        <north>55</north>
        <south>20</south>
        <east>-60</east>
        <west>-130</west>
        <rotation>0</rotation>
      </LatLonBox>
      <color>ccffffff</color>
      <drawOrder>10</drawOrder>
    </GroundOverlay>
    
"

/-- The suffix of segment 3 after its `<GroundOverlay>` marker. -/
def kml_seg_3_tail : String :=
  "\n      <name>Temperature Data</name>\n      <description>Current Temperature - Updated: "

/-- `create_kml`, lines 254–326: formats the timestamp, escapes the image
URL with `xml.sax.saxutils.escape`, and interpolates both (plus the raw,
unescaped `service_name`, default `"NDFD"`) into the fixed KML template. -/
def create_kml (image_url : String) (timestamp_ms : Int) (service_name : String) : String :=
  kml_seg_1 ++ format_time timestamp_ms ++ kml_seg_2 ++ service_name ++
    kml_seg_3 ++ format_time timestamp_ms ++ kml_seg_4 ++ xml_escape image_url ++ kml_seg_5

/-- Parse the image reference back out of an overlay document: the content
of the first `<href>` element inside the first `<GroundOverlay>` element,
with the escaping undone. -/
def parse_href (kml : String) : Option String :=
  match findAfter "<GroundOverlay>".data kml.data with
  | none => none
  | some r1 =>
    match findAfter "<href>".data r1 with
    | none => none
    | some r2 =>
      match takeUntil "</href>".data r2 with
      | none => none
      | some body => some ⟨xml_unescape_chars body⟩

/-- Content of the first `openTag`…`closeTag` element of `s`. -/
def between (openTag closeTag s : List Char) : Option (List Char) :=
  match findAfter openTag s with
  | none => none
  | some r => takeUntil closeTag r

/-- Parse the declared geographic bounding box back out of an overlay
document: the north/south/east/west contents of the first `<LatLonBox>`
element. -/
def parse_latlonbox (kml : String) : Option (String × String × String × String) :=
  match findAfter "<LatLonBox>".data kml.data with
  | none => none
  | some r =>
    match between "<north>".data "</north>".data r,
          between "<south>".data "</south>".data r,
          between "<east>".data "</east>".data r,
          between "<west>".data "</west>".data r with
    | some n, some s2, some e, some w => some (⟨n⟩, ⟨s2⟩, ⟨e⟩, ⟨w⟩)
    | _, _, _, _ => none

lemma str_data_append (a b : String) : (a ++ b).data = a.data ++ b.data := by
  cases a
  cases b
  rfl

lemma processChunk_text_safe (σ : List (List Char)) (s : List Char)
    (hs : ∀ c ∈ s, time_safe c = true) :
    processChunk ⟨σ, .text⟩ s = ⟨σ, .text⟩ := by
  induction s with
  | nil => rfl
  | cons c rest ih =>
    have hc := time_safe_not_markup c (hs c (List.mem_cons_self c rest))
    show processChunk (processChar ⟨σ, XmlMode.text⟩ c) rest = _
    rw [processChar_text_plain σ c hc.2.2.2 hc.1 hc.2.1]
    exact ih (fun x hx => hs x (List.mem_cons_of_mem c hx))

lemma format_time_no_lt (ms : Int) : '<' ∉ (format_time ms).data := by
  intro hm
  have := format_time_safe ms '<' hm
  exact absurd this (by decide)

lemma mk_data (l : List Char) : (String.mk l).data = l := rfl

lemma findAfter_skip_no_lt (pat ts x : List Char) (hp : pat.head? = some '<')
    (h : '<' ∉ ts) : findAfter pat (ts ++ x) = findAfter pat x := by
  cases pat with
  | nil => simp at hp
  | cons p pr =>
    simp only [List.head?_cons, Option.some.injEq] at hp
    subst hp
    exact findAfter_skip_no_head '<' pr ts x h

lemma takeUntil_skip_no_lt (pat e x : List Char) (hp : pat.head? = some '<')
    (h : '<' ∉ e) : takeUntil pat (e ++ x) = (takeUntil pat x).map (e ++ ·) := by
  cases pat with
  | nil => simp at hp
  | cons p pr =>
    simp only [List.head?_cons, Option.some.injEq] at hp
    subst hp
    exact takeUntil_skip_no_head '<' pr e x h

lemma between_append_some (o c p x r : List Char) (h : between o c p = some r) :
    between o c (p ++ x) = some r := by
  rw [between] at h ⊢
  cases hf : findAfter o p with
  | none => rw [hf] at h; simp at h
  | some rr =>
    rw [hf] at h
    rw [findAfter_append_some o p x rr hf]
    exact takeUntil_append_some c rr x r h

lemma processChar_err (σ : List (List Char)) (c : Char) :
    processChar ⟨σ, .err⟩ c = ⟨σ, .err⟩ := by
  by_cases h : valid_xml_char c = true <;> simp [processChar, h]

lemma processChunk_err (σ : List (List Char)) (s : List Char) :
    processChunk ⟨σ, .err⟩ s = ⟨σ, .err⟩ := by
  induction s with
  | nil => rfl
  | cons c rest ih =>
    show processChunk (processChar ⟨σ, XmlMode.err⟩ c) rest = _
    rw [processChar_err, ih]

lemma create_kml_data (url sn : String) (ts : Int) :
    (create_kml url ts sn).data =
      kml_seg_1.data ++ ((format_time ts).data ++ (kml_seg_2.data ++ (sn.data ++
        (kml_seg_3.data ++ ((format_time ts).data ++ (kml_seg_4.data ++
          (escape_list url.data ++ kml_seg_5.data))))))) := by
  simp [create_kml, str_data_append, List.append_assoc, xml_escape, mk_data]

lemma kml_seg_5_data :
    kml_seg_5.data = kml_seg_5a.data ++ (kml_seg_5b.data ++ kml_seg_5c.data) := by
  simp [kml_seg_5, str_data_append, List.append_assoc]

set_option maxRecDepth 20000 in
lemma ev_st_seg1 : processChunk ⟨[], .text⟩ kml_seg_1.data =
    ⟨["name".data, "Document".data, "kml".data], .text⟩ := by decide

set_option maxRecDepth 20000 in
lemma ev_st_seg2 :
    processChunk ⟨["name".data, "Document".data, "kml".data], .text⟩ kml_seg_2.data =
      ⟨["description".data, "Document".data, "kml".data], .text⟩ := by decide

set_option maxRecDepth 20000 in
lemma ev_st_ndfd :
    processChunk ⟨["description".data, "Document".data, "kml".data], .text⟩ "NDFD".data =
      ⟨["description".data, "Document".data, "kml".data], .text⟩ := by decide

set_option maxRecDepth 20000 in
lemma ev_st_seg3 :
    processChunk ⟨["description".data, "Document".data, "kml".data], .text⟩ kml_seg_3.data =
      ⟨["description".data, "GroundOverlay".data, "Document".data, "kml".data], .text⟩ := by
  decide

set_option maxRecDepth 20000 in
lemma ev_st_seg4 :
    processChunk ⟨["description".data, "GroundOverlay".data, "Document".data, "kml".data],
        .text⟩ kml_seg_4.data =
      ⟨["href".data, "Icon".data, "GroundOverlay".data, "Document".data, "kml".data],
        .text⟩ := by
  decide

set_option maxRecDepth 20000 in
lemma ev_st_seg5a :
    processChunk ⟨["href".data, "Icon".data, "GroundOverlay".data, "Document".data,
        "kml".data], .text⟩ kml_seg_5a.data =
      ⟨["Document".data, "kml".data], .text⟩ := by decide

set_option maxRecDepth 20000 in
lemma ev_st_seg5b :
    processChunk ⟨["Document".data, "kml".data], .text⟩ kml_seg_5b.data =
      ⟨["Document".data, "kml".data], .text⟩ := by decide

set_option maxRecDepth 20000 in
lemma ev_st_seg5c :
    processChunk ⟨["Document".data, "kml".data], .text⟩ kml_seg_5c.data =
      ⟨[], .text⟩ := by decide

set_option maxRecDepth 20000 in
lemma ev_go_seg1 : findAfter "<GroundOverlay>".data kml_seg_1.data = none := by decide

set_option maxRecDepth 20000 in
lemma ev_go_seg1p : tail_overlap "<GroundOverlay>".data kml_seg_1.data = false := by decide

set_option maxRecDepth 20000 in
lemma ev_go_seg2 : findAfter "<GroundOverlay>".data kml_seg_2.data = none := by decide

set_option maxRecDepth 20000 in
lemma ev_go_seg2p : tail_overlap "<GroundOverlay>".data kml_seg_2.data = false := by decide

set_option maxRecDepth 20000 in
lemma ev_go_seg3 :
    findAfter "<GroundOverlay>".data kml_seg_3.data = some kml_seg_3_tail.data := by decide

set_option maxRecDepth 20000 in
lemma ev_href_t3 : findAfter "<href>".data kml_seg_3_tail.data = none := by decide

set_option maxRecDepth 20000 in
lemma ev_href_t3p : tail_overlap "<href>".data kml_seg_3_tail.data = false := by decide

set_option maxRecDepth 20000 in
lemma ev_href_seg4 : findAfter "<href>".data kml_seg_4.data = some [] := by decide

set_option maxRecDepth 20000 in
lemma ev_hrefc_seg5a : takeUntil "</href>".data kml_seg_5a.data = some [] := by decide

set_option maxRecDepth 20000 in
lemma ev_llb_seg1 : findAfter "<LatLonBox>".data kml_seg_1.data = none := by decide

set_option maxRecDepth 20000 in
lemma ev_llb_seg1p : tail_overlap "<LatLonBox>".data kml_seg_1.data = false := by decide

set_option maxRecDepth 20000 in
lemma ev_llb_seg2 : findAfter "<LatLonBox>".data kml_seg_2.data = none := by decide

set_option maxRecDepth 20000 in
lemma ev_llb_seg2p : tail_overlap "<LatLonBox>".data kml_seg_2.data = false := by decide

set_option maxRecDepth 20000 in
lemma ev_llb_seg3 : findAfter "<LatLonBox>".data kml_seg_3.data = none := by decide

set_option maxRecDepth 20000 in
lemma ev_llb_seg3p : tail_overlap "<LatLonBox>".data kml_seg_3.data = false := by decide

set_option maxRecDepth 20000 in
lemma ev_llb_seg4 : findAfter "<LatLonBox>".data kml_seg_4.data = none := by decide

set_option maxRecDepth 20000 in
lemma ev_llb_seg4p : tail_overlap "<LatLonBox>".data kml_seg_4.data = false := by decide

set_option maxRecDepth 20000 in
lemma ev_llb_seg5a :
    findAfter "<LatLonBox>".data kml_seg_5a.data = some kml_seg_5a_tail.data := by decide

set_option maxRecDepth 20000 in
lemma ev_north :
    between "<north>".data "</north>".data kml_seg_5a_tail.data = some "55".data := by decide

set_option maxRecDepth 20000 in
lemma ev_south :
    between "<south>".data "</south>".data kml_seg_5a_tail.data = some "20".data := by decide

set_option maxRecDepth 20000 in
lemma ev_east :
    between "<east>".data "</east>".data kml_seg_5a_tail.data = some "-60".data := by decide

set_option maxRecDepth 20000 in
lemma ev_west :
    between "<west>".data "</west>".data kml_seg_5a_tail.data = some "-130".data := by decide

set_option maxRecDepth 20000 in
lemma ev_cd_seg1 : findAfter "<![CDATA[".data kml_seg_1.data = none := by decide

set_option maxRecDepth 20000 in
lemma ev_cd_seg1p : tail_overlap "<![CDATA[".data kml_seg_1.data = false := by decide

set_option maxRecDepth 20000 in
lemma ev_cd_seg2 : findAfter "<![CDATA[".data kml_seg_2.data = none := by decide

set_option maxRecDepth 20000 in
lemma ev_cd_seg2p : tail_overlap "<![CDATA[".data kml_seg_2.data = false := by decide

set_option maxRecDepth 20000 in
lemma ev_cd_seg3 : findAfter "<![CDATA[".data kml_seg_3.data = none := by decide

set_option maxRecDepth 20000 in
lemma ev_cd_seg3p : tail_overlap "<![CDATA[".data kml_seg_3.data = false := by decide

set_option maxRecDepth 20000 in
lemma ev_cd_seg4 : findAfter "<![CDATA[".data kml_seg_4.data = none := by decide

set_option maxRecDepth 20000 in
lemma ev_cd_seg4p : tail_overlap "<![CDATA[".data kml_seg_4.data = false := by decide

set_option maxRecDepth 20000 in
lemma ev_cd_seg5a : findAfter "<![CDATA[".data kml_seg_5a.data = none := by decide

set_option maxRecDepth 20000 in
lemma ev_cd_seg5ap : tail_overlap "<![CDATA[".data kml_seg_5a.data = false := by decide

set_option maxRecDepth 20000 in
lemma ev_cd_seg5b : findAfter "<![CDATA[".data kml_seg_5b.data = none := by decide

set_option maxRecDepth 20000 in
lemma ev_cd_seg5bp : tail_overlap "<![CDATA[".data kml_seg_5b.data = false := by decide

set_option maxRecDepth 20000 in
lemma ev_cd_seg5c : findAfter "<![CDATA[".data kml_seg_5c.data = none := by decide

lemma create_kml_href_eq (url : String) (ts : Int) :
    parse_href (create_kml url ts "NDFD") = some url := by
  have h1 : findAfter "<GroundOverlay>".data (create_kml url ts "NDFD").data =
      some (kml_seg_3_tail.data ++ ((format_time ts).data ++ (kml_seg_4.data ++
        (escape_list url.data ++ kml_seg_5.data)))) := by
    rw [create_kml_data,
      findAfter_skip _ _ _ ev_go_seg1 ev_go_seg1p,
      findAfter_skip_no_lt _ _ _ (by decide) (format_time_no_lt ts),
      findAfter_skip _ _ _ ev_go_seg2 ev_go_seg2p,
      findAfter_skip_no_lt _ _ _ (by decide) (by decide)]
    exact findAfter_append_some _ _ _ _ ev_go_seg3
  have h2 : findAfter "<href>".data (kml_seg_3_tail.data ++ ((format_time ts).data ++
      (kml_seg_4.data ++ (escape_list url.data ++ kml_seg_5.data)))) =
      some (escape_list url.data ++ kml_seg_5.data) := by
    rw [findAfter_skip _ _ _ ev_href_t3 ev_href_t3p,
      findAfter_skip_no_lt _ _ _ (by decide) (format_time_no_lt ts)]
    have := findAfter_append_some "<href>".data kml_seg_4.data
      (escape_list url.data ++ kml_seg_5.data) [] ev_href_seg4
    simpa using this
  have h3 : takeUntil "</href>".data (escape_list url.data ++ kml_seg_5.data) =
      some (escape_list url.data) := by
    rw [takeUntil_skip_no_lt _ _ _ (by decide) (escape_list_no_lt url.data)]
    have h5 : takeUntil "</href>".data kml_seg_5.data = some [] := by
      rw [kml_seg_5_data]
      exact takeUntil_append_some _ _ _ _ ev_hrefc_seg5a
    rw [h5]
    simp
  simp only [parse_href, h1, h2, h3, unescape_escape]

lemma create_kml_bbox_eq (url sn : String) (ts : Int) (hsn : '<' ∉ sn.data) :
    parse_latlonbox (create_kml url ts sn) = some ("55", "20", "-60", "-130") := by
  have hL : findAfter "<LatLonBox>".data (create_kml url ts sn).data =
      some (kml_seg_5a_tail.data ++ (kml_seg_5b.data ++ kml_seg_5c.data)) := by
    rw [create_kml_data,
      findAfter_skip _ _ _ ev_llb_seg1 ev_llb_seg1p,
      findAfter_skip_no_lt _ _ _ (by decide) (format_time_no_lt ts),
      findAfter_skip _ _ _ ev_llb_seg2 ev_llb_seg2p,
      findAfter_skip_no_lt _ _ _ (by decide) hsn,
      findAfter_skip _ _ _ ev_llb_seg3 ev_llb_seg3p,
      findAfter_skip_no_lt _ _ _ (by decide) (format_time_no_lt ts),
      findAfter_skip _ _ _ ev_llb_seg4 ev_llb_seg4p,
      findAfter_skip_no_lt _ _ _ (by decide) (escape_list_no_lt url.data),
      kml_seg_5_data]
    exact findAfter_append_some _ _ _ _ ev_llb_seg5a
  have hn := between_append_some _ _ _ (kml_seg_5b.data ++ kml_seg_5c.data) _ ev_north
  have hs := between_append_some _ _ _ (kml_seg_5b.data ++ kml_seg_5c.data) _ ev_south
  have he := between_append_some _ _ _ (kml_seg_5b.data ++ kml_seg_5c.data) _ ev_east
  have hw := between_append_some _ _ _ (kml_seg_5b.data ++ kml_seg_5c.data) _ ev_west
  simp only [parse_latlonbox, hL, hn, hs, he, hw]

lemma create_kml_wf (url : String) (ts : Int)
    (hv : ∀ c ∈ url.data, valid_xml_char c = true) :
    xml_well_formed (create_kml url ts "NDFD") = true := by
  rw [xml_well_formed, create_kml_data, kml_seg_5_data,
    processChunk_append, ev_st_seg1,
    processChunk_append, processChunk_text_safe _ _ (format_time_safe ts),
    processChunk_append, ev_st_seg2,
    processChunk_append, ev_st_ndfd,
    processChunk_append, ev_st_seg3,
    processChunk_append, processChunk_text_safe _ _ (format_time_safe ts),
    processChunk_append, ev_st_seg4,
    processChunk_append, processChunk_text_escape _ _ hv,
    processChunk_append, ev_st_seg5a,
    processChunk_append, ev_st_seg5b, ev_st_seg5c]
  decide

lemma create_kml_no_cdata (url : String) (ts : Int) :
    findAfter "<![CDATA[".data (create_kml url ts "NDFD").data = none := by
  rw [create_kml_data, kml_seg_5_data,
    findAfter_skip _ _ _ ev_cd_seg1 ev_cd_seg1p,
    findAfter_skip_no_lt _ _ _ (by decide) (format_time_no_lt ts),
    findAfter_skip _ _ _ ev_cd_seg2 ev_cd_seg2p,
    findAfter_skip_no_lt _ _ _ (by decide) (by decide),
    findAfter_skip _ _ _ ev_cd_seg3 ev_cd_seg3p,
    findAfter_skip_no_lt _ _ _ (by decide) (format_time_no_lt ts),
    findAfter_skip _ _ _ ev_cd_seg4 ev_cd_seg4p,
    findAfter_skip_no_lt _ _ _ (by decide) (escape_list_no_lt url.data),
    findAfter_skip _ _ _ ev_cd_seg5a ev_cd_seg5ap,
    findAfter_skip _ _ _ ev_cd_seg5b ev_cd_seg5bp]
  exact ev_cd_seg5c

/-- C7 (counterexample).  `create_kml` escapes only `&`, `<`, `>`; for an
image URL containing the character U+0000 — forbidden by the XML `Char`
production — the generated document is not well-formed markup, though
`create_kml` still returns it.  The claim's universal well-formedness over
all supplied URLs therefore fails. -/
theorem c7_counterexample :
    xml_well_formed (create_kml (String.mk [Char.ofNat 0]) 0 "NDFD") = false := by
  rw [xml_well_formed, create_kml_data,
    processChunk_append, ev_st_seg1,
    processChunk_append, processChunk_text_safe _ _ (format_time_safe 0),
    processChunk_append, ev_st_seg2,
    processChunk_append, ev_st_ndfd,
    processChunk_append, ev_st_seg3,
    processChunk_append, processChunk_text_safe _ _ (format_time_safe 0),
    processChunk_append, ev_st_seg4,
    processChunk_append,
    show processChunk ⟨["href".data, "Icon".data, "GroundOverlay".data, "Document".data,
        "kml".data], .text⟩ (escape_list (String.mk [Char.ofNat 0]).data) =
      ⟨["href".data, "Icon".data, "GroundOverlay".data, "Document".data, "kml".data],
        .err⟩ from by decide,
    processChunk_err]
  decide

/-- C7 (amended).  For every supplied image-reference URL consisting of
XML-valid characters, and every timestamp, the overlay document produced by
`create_kml` (with its default service name `NDFD`) is well-formed markup,
and parsing it back recovers the image-reference URL byte-for-byte (the
escaping of `&`, `<`, `>` is undone exactly) and the CONUS bounding box
(north 55, south 20, east −60, west −130).  For URLs containing XML-invalid
control characters the parse-back still recovers the URL, but the document
is not well-formed (see the counterexample). -/
theorem c7_theorem (url : String) (ts : Int)
    (hv : ∀ c ∈ url.data, valid_xml_char c = true) :
    xml_well_formed (create_kml url ts "NDFD") = true
    ∧ parse_href (create_kml url ts "NDFD") = some url
    ∧ parse_latlonbox (create_kml url ts "NDFD") = some ("55", "20", "-60", "-130") :=
  ⟨create_kml_wf url ts hv, create_kml_href_eq url ts,
    create_kml_bbox_eq url "NDFD" ts (by decide)⟩

/-- C7 witness: the spec's scenario URL, reserved `&` characters included,
round-trips byte-for-byte through the generated document. -/
theorem c7_witness :
    (∀ c ∈ ("https://x/export?bbox=-130,20,-60,55&time=123&foo=a&bar=b" : String).data,
      valid_xml_char c = true)
    ∧ (xml_well_formed
        (create_kml "https://x/export?bbox=-130,20,-60,55&time=123&foo=a&bar=b" 123 "NDFD")
          = true
      ∧ parse_href
          (create_kml "https://x/export?bbox=-130,20,-60,55&time=123&foo=a&bar=b" 123 "NDFD")
          = some "https://x/export?bbox=-130,20,-60,55&time=123&foo=a&bar=b"
      ∧ parse_latlonbox
          (create_kml "https://x/export?bbox=-130,20,-60,55&time=123&foo=a&bar=b" 123 "NDFD")
          = some ("55", "20", "-60", "-130")) :=
  ⟨by decide,
    c7_theorem "https://x/export?bbox=-130,20,-60,55&time=123&foo=a&bar=b" 123 (by decide)⟩

/-- C8 (counterexample).  On a URL containing the XML-invalid control
character U+000B the escaped-embedding document is not well-formed markup,
yet `create_kml` returns it unchanged: no error is surfaced and no
verbatim-wrapped (`<![CDATA[`) section appears anywhere in the output — the
claimed validate-then-retry mechanism does not exist in the code. -/
theorem c8_counterexample :
    xml_well_formed (create_kml (String.mk [Char.ofNat 11]) 0 "NDFD") = false
    ∧ findAfter "<![CDATA[".data
        (create_kml (String.mk [Char.ofNat 11]) 0 "NDFD").data = none := by
  constructor
  · rw [xml_well_formed, create_kml_data,
      processChunk_append, ev_st_seg1,
      processChunk_append, processChunk_text_safe _ _ (format_time_safe 0),
      processChunk_append, ev_st_seg2,
      processChunk_append, ev_st_ndfd,
      processChunk_append, ev_st_seg3,
      processChunk_append, processChunk_text_safe _ _ (format_time_safe 0),
      processChunk_append, ev_st_seg4,
      processChunk_append,
      show processChunk ⟨["href".data, "Icon".data, "GroundOverlay".data, "Document".data,
          "kml".data], .text⟩ (escape_list (String.mk [Char.ofNat 11]).data) =
        ⟨["href".data, "Icon".data, "GroundOverlay".data, "Document".data, "kml".data],
          .err⟩ from by decide,
      processChunk_err]
    decide
  · exact create_kml_no_cdata (String.mk [Char.ofNat 11]) 0

/-- C8 (amended).  `create_kml` performs no well-formedness validation and
no retry: for every image URL and timestamp it unconditionally returns the
single character-escaped embedding — the output never contains a
verbatim-wrapped (`<![CDATA[`) section, and the embedded reference is
always recovered by undoing the character escaping.  (The counterexample
shows a malformed document being returned without any error or alternate
embedding.) -/
theorem c8_theorem (url : String) (ts : Int) :
    findAfter "<![CDATA[".data (create_kml url ts "NDFD").data = none
    ∧ parse_href (create_kml url ts "NDFD") = some url :=
  ⟨create_kml_no_cdata url ts, create_kml_href_eq url ts⟩

/-- C9 (counterexample).  The `service_name` (taken from the remote
service's `mapName`) is interpolated into the document *unescaped*; a
service name containing markup changes the bounding box declared by the
document's first `LatLonBox` element, contradicting the claim that no
input can change it. -/
theorem c9_counterexample :
    parse_latlonbox (create_kml "u" 0
        "<LatLonBox><north>99</north><south>98</south><east>97</east><west>96</west></LatLonBox>")
      = some ("99", "98", "97", "96")
    ∧ ("99", "98", "97", "96")
      ≠ (("55", "20", "-60", "-130") : String × String × String × String) := by
  constructor
  · decide
  · decide

/-- C9 (amended).  For every image URL and timestamp, and every service
name free of markup (no `<` character — in particular the default
`"NDFD"`), the bounding box declared in the generated overlay document is
exactly the configured CONUS extent (north 55, south 20, east −60,
west −130); a service name containing markup can inject a different
declared box, since it is embedded unescaped. -/
theorem c9_theorem (url sn : String) (ts : Int) (hsn : '<' ∉ sn.data) :
    parse_latlonbox (create_kml url ts sn) = some ("55", "20", "-60", "-130") :=
  create_kml_bbox_eq url sn ts hsn

/-- C9 witness: the amended theorem at a concrete URL, timestamp and the
default service name. -/
theorem c9_witness :
    ('<' ∉ ("NDFD" : String).data)
    ∧ parse_latlonbox (create_kml "u" 5 "NDFD") = some ("55", "20", "-60", "-130") :=
  ⟨by decide, c9_theorem "u" "NDFD" 5 (by decide)⟩

set_option maxRecDepth 20000 in
/-- C4 witness: a fetch oracle accepting exactly the second parameter set's
URL; the search returns that URL after probing exactly sets 1 and 2. -/
theorem c4_witness :
    build_image_url
      (fun u =>
        if u == set_url "https://e" 5 0 1 then FetchResult.response 200 "image/png"
        else FetchResult.response 404 "text/html")
      "https://e" 5 { mapName := none, layers := [], timeInfo := none, wms := false } =
      (set_url "https://e" 5 0 1, (List.range (1 + 1)).map (set_url "https://e" 5 0)) :=
  c4_theorem
    (fun u =>
      if u == set_url "https://e" 5 0 1 then FetchResult.response 200 "image/png"
      else FetchResult.response 404 "text/html")
    "https://e" 5 { mapName := none, layers := [], timeInfo := none, wms := false } 1
    (by omega) (by decide) (by intro k hk; interval_cases k; decide)
